import Mathlib

/-!
Verification of the lanprobe network throughput prober (src/lanprobe.py).

Times and rates are modelled as rationals (ℚ); the Python code uses floats,
but all the properties at stake are about the exact arithmetic the code
performs, so ℚ is the faithful idealisation.  Blocking I/O is modelled by
explicit traces of per-iteration events (clock readings, received byte
counts, timeouts, errors, observations of the cancellation flag).
-/

namespace LanProbe

/-! ## Pacing (server_tcp_session lines 167-184, server_udp_session lines 199-215)

`bytes_per_sec = args.speed * 125000`
`interval = packet_size / bytes_per_sec if bytes_per_sec > 0 else 0`
then the loop: `now = perf_counter(); if now < next_send_time: sleep(max(0,
next_send_time - now)); send; next_send_time += interval`. -/

/-- `bytes_per_sec = args.speed * 125000` (speed is in Mbit/s). -/
def bytes_per_sec (speed : ℚ) : ℚ := speed * 125000

/-- `interval = packet_size / bytes_per_sec if bytes_per_sec > 0 else 0`. -/
def interval (speed : ℚ) (packet_size : ℕ) : ℚ :=
  if bytes_per_sec speed > 0 then (packet_size : ℚ) / bytes_per_sec speed else 0

/-- One send iteration of the paced loop: whether the sleep branch fired,
for how long it slept, and the absolute deadline governing this send. -/
structure SendStep where
  sleeps : Bool
  sleepFor : ℚ
  deadline : ℚ
  deriving Repr, DecidableEq

/-- The paced send loop, driven by the list of clock readings (`now =
time.perf_counter()`) observed at each iteration.  `next` is
`next_send_time`.  Each iteration sleeps when `now < next_send_time`, sends,
then advances the deadline by `iv` (absolute, never recomputed from `now`). -/
def paceTrace (iv : ℚ) (next : ℚ) : List ℚ → List SendStep
  | [] => []
  | now :: rest =>
      ⟨decide (now < next), max 0 (next - now), next⟩ :: paceTrace iv (next + iv) rest

/-- Helper: the N-th send of the paced trace is governed by deadline
`next + N*iv`, whatever the clock readings are. -/
theorem paceTrace_deadlines (iv : ℚ) (nows : List ℚ) :
    ∀ (next : ℚ) (n : ℕ) (s : SendStep),
      (paceTrace iv next nows).get? n = some s → s.deadline = next + (n : ℚ) * iv := by
  induction nows with
  | nil => intro next n s h; simp [paceTrace] at h
  | cons now rest ih =>
      intro next n s h
      cases n with
      | zero =>
          simp only [paceTrace, List.get?_cons_zero, Option.some.injEq] at h
          rw [← h]
          simp
      | succ n =>
          simp only [paceTrace, List.get?_cons_succ] at h
          rw [ih (next + iv) n s h]
          push_cast
          ring

/-- C1: for every positive target rate (`speed > 0` Mbit/s, i.e.
`targetBitsPerSecond = speed * 10^6 > 0`) and positive packet size, the
computed interval equals `packetSizeBytes*8 / targetBitsPerSecond`, and the
deadline of the N-th send is exactly `deadline(0) + N*interval`,
independent of the per-iteration clock readings (jitter). -/
theorem c1_absolute_deadline (speed : ℚ) (packet_size : ℕ)
    (hs : 0 < speed) (hp : 0 < packet_size) (t0 : ℚ) (nows : List ℚ) :
    interval speed packet_size =
      ((packet_size : ℚ) * 8) / (speed * 1000000)
    ∧ ∀ (n : ℕ) (s : SendStep),
        (paceTrace (interval speed packet_size) t0 nows).get? n = some s →
          s.deadline = t0 + (n : ℚ) * interval speed packet_size := by
  constructor
  · have hbp : bytes_per_sec speed > 0 := by
      unfold bytes_per_sec; positivity
    rw [interval, if_pos hbp]
    unfold bytes_per_sec
    rw [div_eq_div_iff (by positivity) (by positivity)]
    ring
  · exact fun n s h => paceTrace_deadlines _ _ t0 n s h

/-- Witness for C1 at speed 8 Mbit/s, 1000-byte packets, start time 5,
three sends: the third send's deadline is `5 + 2*interval`. -/
theorem c1_absolute_deadline_witness :
    interval 8 1000 = ((1000 : ℚ) * 8) / (8 * 1000000)
    ∧ ((paceTrace (interval 8 1000) 5 [5, 6, 7]).get? 2).map (fun s => s.deadline)
        = some (5 + (2 : ℚ) * interval 8 1000) := by
  have h := c1_absolute_deadline 8 1000 (by norm_num) (by norm_num) 5 [5, 6, 7]
  refine ⟨h.1, ?_⟩
  have hg : (paceTrace (interval 8 1000) 5 [5, 6, 7]).get? 2
      = some ⟨false, 0, 2501 / 500⟩ := by
    simp only [paceTrace, List.get?_cons_succ, List.get?_cons_zero, Option.some.injEq,
      SendStep.mk.injEq]
    norm_num [interval, bytes_per_sec]
  rw [hg, Option.map_some']
  exact congrArg some (h.2 2 _ hg)

/-- C8: with `speed = 0` the computed interval is 0 (the guard
`bytes_per_sec > 0` avoids the division), and as long as the monotonic clock
never reads earlier than the loop's start time, the sleep branch
(`now < next_send_time`) never fires. -/
theorem c8_zero_rate_no_sleep (packet_size : ℕ) (t0 : ℚ) (nows : List ℚ)
    (hmono : ∀ now ∈ nows, t0 ≤ now) :
    interval 0 packet_size = 0
    ∧ (paceTrace (interval 0 packet_size) t0 nows).all (fun s => !s.sleeps) = true := by
  have hiv : interval 0 packet_size = 0 := by
    unfold interval bytes_per_sec; norm_num
  refine ⟨hiv, ?_⟩
  rw [hiv]
  induction nows with
  | nil => rfl
  | cons now rest ih =>
      have hnow : t0 ≤ now := hmono now (List.mem_cons_self _ _)
      have hrest : ∀ x ∈ rest, t0 ≤ x := fun x hx => hmono x (List.mem_cons_of_mem _ hx)
      simp only [paceTrace, add_zero, List.all_cons, Bool.and_eq_true]
      refine ⟨?_, ih hrest⟩
      simp [not_lt.mpr hnow]

/-- Witness for C8: packet 1400, start 0, clock readings 0, 5, 7. -/
theorem c8_zero_rate_no_sleep_witness :
    interval 0 1400 = 0
    ∧ (paceTrace (interval 0 1400) 0 [0, 5, 7]).all (fun s => !s.sleeps) = true :=
  c8_zero_rate_no_sleep 1400 0 [0, 5, 7] (by norm_num)

/-- C10: a negative configured speed also makes `bytes_per_sec ≤ 0`, so the
guard `bytes_per_sec > 0` fails and the interval is 0: the paced loop behaves
exactly as in the unthrottled `speed = 0` case (it does not fail). -/
theorem c10_negative_rate_unthrottled (speed : ℚ) (packet_size : ℕ)
    (hneg : speed < 0) (t0 : ℚ) (nows : List ℚ) :
    interval speed packet_size = 0
    ∧ interval speed packet_size = interval 0 packet_size
    ∧ paceTrace (interval speed packet_size) t0 nows =
        paceTrace (interval 0 packet_size) t0 nows := by
  have h0 : interval speed packet_size = 0 := by
    have hbp : ¬ bytes_per_sec speed > 0 := by
      unfold bytes_per_sec
      nlinarith
    rw [interval, if_neg hbp]
  have h0' : interval 0 packet_size = 0 := by
    unfold interval bytes_per_sec; norm_num
  exact ⟨h0, by rw [h0, h0'], by rw [h0, h0']⟩

/-- Witness for C10 at speed -5 Mbit/s. -/
theorem c10_negative_rate_unthrottled_witness :
    interval (-5) 1400 = 0
    ∧ interval (-5) 1400 = interval 0 1400
    ∧ paceTrace (interval (-5) 1400) 0 [0, 1] =
        paceTrace (interval 0 1400) 0 [0, 1] :=
  c10_negative_rate_unthrottled (-5) 1400 (by norm_num) 0 [0, 1]

/-! ## Throughput sampling (client_tcp lines 252-292, client_udp lines 303-357)

Receiver state: `total_bytes`, `last_report_time`, `last_bytes` (plus the
fixed `start_time`).  On each received chunk of `n` bytes at time `now`:
`total_bytes += n`; if `now - last_report_time >= 1.0` a sample
`speed_mbps = (delta_bytes * 8) / (now - last_report_time) / 1e6` is printed
and `last_bytes`/`last_report_time` are reset to the current values.
Mbit/s is bits/s divided by 10^6 (fixed display scaling). -/

/-- Receiver bookkeeping mutated by the measuring loop. -/
structure RxState where
  total_bytes : ℕ
  last_report_time : ℚ
  last_bytes : ℕ
  deriving Repr, DecidableEq

/-- One periodic report line: current speed in Mbit/s and running total. -/
structure Sample where
  speed_mbps : ℚ
  total_bytes : ℕ
  deriving Repr, DecidableEq

/-- Processing one received chunk (the body after `total_bytes += len(data)`
up to the duration check): emits a sample when at least one second has
passed since the previous report, resetting the reference values. -/
def onBytes (s : RxState) (n : ℕ) (now : ℚ) : RxState × Option Sample :=
  let total := s.total_bytes + n
  if now - s.last_report_time ≥ 1 then
    let delta_bytes := total - s.last_bytes
    (⟨total, now, total⟩,
     some ⟨((delta_bytes : ℚ) * 8) / (now - s.last_report_time) / 1000000, total⟩)
  else
    (⟨total, s.last_report_time, s.last_bytes⟩, none)

/-- The final average printed in the `finally` blocks:
`avg_speed = (total_bytes * 8) / final_time / 1e6`, printed only when
`final_time > 0`; `none` means no average line is printed at all. -/
def finalReport (total_bytes : ℕ) (final_time : ℚ) : Option ℚ :=
  if final_time > 0 then some (((total_bytes : ℚ) * 8) / final_time / 1000000)
  else none

/-- C7: a sample is emitted iff at least one second has elapsed since the
previous report timestamp (not wall-clock aligned); its rate is
`bytesSinceLastSample * 8 / secondsSinceLastSample` (displayed in Mbit/s,
i.e. further divided by 10^6); emitting resets the reference timestamp and
byte count to the current values; hence two consecutively emitted samples
are at least one second apart. -/
theorem c7_periodic_sampling (s : RxState) (n : ℕ) (now : ℚ) :
    ((onBytes s n now).2.isSome ↔ now - s.last_report_time ≥ 1)
    ∧ (∀ smp : Sample, (onBytes s n now).2 = some smp →
        smp.speed_mbps =
          (((s.total_bytes + n - s.last_bytes : ℕ) : ℚ) * 8)
            / (now - s.last_report_time) / 1000000
        ∧ (onBytes s n now).1.last_report_time = now
        ∧ (onBytes s n now).1.last_bytes = s.total_bytes + n)
    ∧ (∀ (s' : RxState) (smp : Sample) (n2 : ℕ) (now2 : ℚ) (smp2 : Sample),
        onBytes s n now = (s', some smp) →
        (onBytes s' n2 now2).2 = some smp2 → now2 - now ≥ 1) := by
  by_cases hge : now - s.last_report_time ≥ 1
  · refine ⟨by simp [onBytes, hge], ?_, ?_⟩
    · intro smp hsmp
      simp only [onBytes, if_pos hge, Option.some.injEq] at hsmp
      simp [onBytes, if_pos hge, ← hsmp]
    · intro s' smp n2 now2 smp2 heq h2
      simp only [onBytes, if_pos hge, Prod.mk.injEq] at heq
      by_cases hge2 : now2 - s'.last_report_time ≥ 1
      · have : s'.last_report_time = now := by rw [← heq.1]
        linarith [hge2, this ▸ hge2]
      · simp [onBytes, if_neg hge2] at h2
  · refine ⟨by simp [onBytes, hge], ?_, ?_⟩
    · intro smp hsmp
      simp [onBytes, if_neg hge] at hsmp
    · intro s' smp n2 now2 smp2 heq h2
      simp [onBytes, if_neg hge, Prod.mk.injEq] at heq

/-- Witness for C7: state (10 bytes total, last report at 0, 10 bytes at
last report), 6 new bytes at t = 2: a sample is emitted and the reference
values are reset. -/
theorem c7_periodic_sampling_witness :
    (onBytes ⟨10, 0, 10⟩ 6 2).2.isSome = true
    ∧ (onBytes ⟨10, 0, 10⟩ 6 2).1.last_report_time = 2
    ∧ (onBytes ⟨10, 0, 10⟩ 6 2).1.last_bytes = 16
    ∧ (onBytes ⟨10, 0, 10⟩ 6 2).2 = some ⟨24 / 1000000, 16⟩ := by
  have h := c7_periodic_sampling ⟨10, 0, 10⟩ 6 2
  have he : (onBytes ⟨10, 0, 10⟩ 6 2).2 = some ⟨24 / 1000000, 16⟩ := by
    norm_num [onBytes]
  have hsm := h.2.1 ⟨24 / 1000000, 16⟩ he
  exact ⟨by simp [he], hsm.2.1, hsm.2.2, he⟩

/-- C2 counterexample: with 100 bytes received and zero elapsed time the
code prints no average at all (the `if final_time > 0` guard skips the
report); it does not report an average of 0. -/
theorem c2_counterexample : finalReport 100 0 = none ∧ finalReport 100 0 ≠ some 0 := by
  have h : finalReport 100 0 = none := by norm_num [finalReport]
  exact ⟨h, by simp [h]⟩

/-- C2 amended: at session end the receiver computes the whole-session
average as `(totalBytes * 8) / totalElapsedSeconds` (displayed in Mbit/s)
when the elapsed time is positive; when the elapsed time is ≤ 0 it prints
no average at all — the division is never reached, so no division by zero
occurs. -/
theorem c2_final_average (total_bytes : ℕ) (final_time : ℚ) :
    (final_time > 0 → finalReport total_bytes final_time
        = some (((total_bytes : ℚ) * 8) / final_time / 1000000))
    ∧ (final_time ≤ 0 → finalReport total_bytes final_time = none) := by
  constructor
  · intro h
    rw [finalReport, if_pos h]
  · intro h
    rw [finalReport, if_neg (not_lt.mpr h)]

/-- Witness for C2 amended: positive elapsed time prints the average,
zero elapsed time prints nothing. -/
theorem c2_final_average_witness :
    finalReport 5000 2 = some (((5000 : ℚ) * 8) / 2 / 1000000)
    ∧ finalReport 5000 0 = none :=
  ⟨(c2_final_average 5000 2).1 (by norm_num),
   (c2_final_average 5000 0).2 (by norm_num)⟩

/-! ## The TCP measuring loop (client_tcp lines 258-283)

`while not stop_event.is_set():` then `recv` with a 0.1s timeout; a
zero-length read breaks (peer closed); a successful read updates the
sampler and then — only then — checks `now - start_time >= args.time`; a
`socket.timeout` just continues (it never reaches the duration check); any
other OSError propagates out of the loop.  Each loop iteration is modelled
by either an observation that the cancellation flag is set, or the outcome
of the one `recv` call it performs. -/

/-- Outcome of one `recv` call: a timeout at clock reading `now`, a chunk of
`n` bytes read at `now` (`n = 0` is the peer-closed signal for TCP), or an
OS-level receive error (uncaught exception). -/
inductive RxEvent
  | timeout (now : ℚ)
  | data (n : ℕ) (now : ℚ)
  | recvErr
  deriving Repr, DecidableEq

/-- One iteration of the measuring loop: either the cancellation flag is
observed set at the top of the loop, or a `recv` outcome. -/
inductive LoopIter
  | cancel
  | ev (e : RxEvent)
  deriving Repr, DecidableEq

/-- Why (or whether) the measuring loop stopped. -/
inductive StopCause
  | cancelled
  | peerClosed
  | durationElapsed
  | recvError
  | running
  deriving Repr, DecidableEq

/-- Result of running the measuring loop: final receiver state, samples
emitted, stop cause, and the number of `recv` calls performed. -/
structure LoopResult where
  st : RxState
  samples : List Sample
  cause : StopCause
  recvCount : ℕ
  deriving Repr, DecidableEq

/-- The TCP measuring loop over a trace of iterations.  `start` is
`start_time`, `dur` is `args.time`, `k` counts `recv` calls already made. -/
def measureLoop (start dur : ℚ) (s : RxState) (acc : List Sample) (k : ℕ) :
    List LoopIter → LoopResult
  | [] => ⟨s, acc, .running, k⟩
  | .cancel :: _ => ⟨s, acc, .cancelled, k⟩
  | .ev .recvErr :: _ => ⟨s, acc, .recvError, k + 1⟩
  | .ev (.timeout _) :: rest => measureLoop start dur s acc (k + 1) rest
  | .ev (.data n now) :: rest =>
      if n = 0 then ⟨s, acc, .peerClosed, k + 1⟩
      else if now - start ≥ dur then
        ⟨(onBytes s n now).1, acc ++ ((onBytes s n now).2).toList, .durationElapsed, k + 1⟩
      else
        measureLoop start dur (onBytes s n now).1 (acc ++ ((onBytes s n now).2).toList)
          (k + 1) rest

/-- The iterations at which the measuring loop actually stops: an observed
cancellation, a receive error, a zero-length read, or a *successful* read
whose clock reading is past `start + dur`.  A timeout never stops the loop,
whatever the time. -/
def stopsAt (start dur : ℚ) : LoopIter → Bool
  | .cancel => true
  | .ev .recvErr => true
  | .ev (.timeout _) => false
  | .ev (.data n now) => n == 0 || decide (now - start ≥ dur)

/-- C3 counterexample: duration 1s from start 0.  The first read (5 bytes
at t = 0.5) is before the deadline; the second receive attempt times out at
t = 2 — after the duration elapsed — and the loop nevertheless continues; a
third receive is taken and its 3 bytes (arriving at t = 3) are counted.
Three `recv` steps are performed although the duration had elapsed before
the second one, refuting "once the duration has elapsed no further receive
step is taken". -/
theorem c3_counterexample :
    measureLoop 0 1 ⟨0, 0, 0⟩ [] 0
        [.ev (.data 5 (1 / 2)), .ev (.timeout 2), .ev (.data 3 3)]
      = ⟨⟨8, 3, 8⟩, [⟨64 / 3 / 1000000, 8⟩], .durationElapsed, 3⟩
    ∧ ((2 : ℚ) - 0 ≥ 0 + 1) ∧ ((3 : ℚ) - 0 ≥ 0 + 1) := by
  refine ⟨?_, by norm_num, by norm_num⟩
  norm_num [measureLoop, onBytes]

/-- C3 amended: the measuring loop runs through every iteration at which no
stop condition holds (performing one `recv` per iteration, even past the
deadline, since a timed-out receive skips the duration check), and stops at
the first iteration that is an observed cancellation, a zero-length read, a
receive error, or a successful read at a time ≥ `start + dur`. -/
theorem c3_loop_termination (start dur : ℚ) (s : RxState) (acc : List Sample)
    (k : ℕ) (trace : List LoopIter)
    (h : ∀ it ∈ trace, stopsAt start dur it = false) :
    ((measureLoop start dur s acc k trace).cause = .running
      ∧ (measureLoop start dur s acc k trace).recvCount = k + trace.length)
    ∧ (∀ (n : ℕ) (now : ℚ), n ≠ 0 → now - start ≥ dur →
        (measureLoop start dur s acc k (trace ++ [.ev (.data n now)])).cause
          = .durationElapsed)
    ∧ (measureLoop start dur s acc k (trace ++ [.cancel])).cause = .cancelled
    ∧ (∀ now : ℚ,
        (measureLoop start dur s acc k (trace ++ [.ev (.data 0 now)])).cause
          = .peerClosed)
    ∧ (measureLoop start dur s acc k (trace ++ [.ev .recvErr])).cause
        = .recvError := by
  induction trace generalizing s acc k with
  | nil =>
      refine ⟨⟨rfl, by simp [measureLoop]⟩, ?_, rfl, ?_, rfl⟩
      · intro n now hn hdur
        simp [measureLoop, if_neg hn, if_pos hdur]
      · intro now
        simp [measureLoop]
  | cons it rest ih =>
      have hit : stopsAt start dur it = false := h it (List.mem_cons_self _ _)
      have hrest : ∀ x ∈ rest, stopsAt start dur x = false :=
        fun x hx => h x (List.mem_cons_of_mem _ hx)
      cases it with
      | cancel => simp [stopsAt] at hit
      | ev e =>
          cases e with
          | recvErr => simp [stopsAt] at hit
          | timeout now =>
              have := ih s acc (k + 1) hrest
              refine ⟨⟨this.1.1, ?_⟩, ?_, ?_, ?_, ?_⟩
              · rw [show measureLoop start dur s acc k (.ev (.timeout now) :: rest)
                    = measureLoop start dur s acc (k + 1) rest from rfl]
                rw [this.1.2]
                simp [Nat.add_comm, Nat.add_assoc, Nat.add_left_comm]
              · intro n now2 hn hdur
                exact this.2.1 n now2 hn hdur
              · exact this.2.2.1
              · exact this.2.2.2.1
              · exact this.2.2.2.2
          | data n now =>
              simp only [stopsAt, Bool.or_eq_false_iff, beq_eq_false_iff_ne,
                decide_eq_false_iff_not] at hit
              obtain ⟨hn, hdur⟩ := hit
              have hstep : ∀ tail, measureLoop start dur s acc k (.ev (.data n now) :: tail)
                  = measureLoop start dur (onBytes s n now).1
                      (acc ++ ((onBytes s n now).2).toList) (k + 1) tail := by
                intro tail
                simp [measureLoop, if_neg hn, if_neg hdur]
              have := ih (onBytes s n now).1 (acc ++ ((onBytes s n now).2).toList)
                (k + 1) hrest
              refine ⟨⟨?_, ?_⟩, ?_, ?_, ?_, ?_⟩
              · rw [hstep rest]; exact this.1.1
              · rw [hstep rest, this.1.2]
                simp [Nat.add_comm, Nat.add_assoc, Nat.add_left_comm]
              · intro n2 now2 hn2 hdur2
                rw [List.cons_append, hstep]
                exact this.2.1 n2 now2 hn2 hdur2
              · rw [List.cons_append, hstep]; exact this.2.2.1
              · intro now2
                rw [List.cons_append, hstep]; exact this.2.2.2.1 now2
              · rw [List.cons_append, hstep]; exact this.2.2.2.2

/-- Witness for C3 amended: two non-stopping iterations (a timeout at t = 1
and a 4-byte read at t = 2 with duration 10), then each stopping iteration
appended in turn. -/
theorem c3_loop_termination_witness :
    ((measureLoop 0 10 ⟨0, 0, 0⟩ [] 0 [.ev (.timeout 1), .ev (.data 4 2)]).cause
        = .running
      ∧ (measureLoop 0 10 ⟨0, 0, 0⟩ [] 0
          [.ev (.timeout 1), .ev (.data 4 2)]).recvCount = 0 + 2)
    ∧ (measureLoop 0 10 ⟨0, 0, 0⟩ [] 0
        ([.ev (.timeout 1), .ev (.data 4 2)] ++ [.ev (.data 7 12)])).cause
        = .durationElapsed
    ∧ (measureLoop 0 10 ⟨0, 0, 0⟩ [] 0
        ([.ev (.timeout 1), .ev (.data 4 2)] ++ [.cancel])).cause = .cancelled
    ∧ (measureLoop 0 10 ⟨0, 0, 0⟩ [] 0
        ([.ev (.timeout 1), .ev (.data 4 2)] ++ [.ev (.data 0 3)])).cause
        = .peerClosed
    ∧ (measureLoop 0 10 ⟨0, 0, 0⟩ [] 0
        ([.ev (.timeout 1), .ev (.data 4 2)] ++ [.ev .recvErr])).cause
        = .recvError := by
  have h := c3_loop_termination 0 10 ⟨0, 0, 0⟩ [] 0
    [.ev (.timeout 1), .ev (.data 4 2)]
    (by
      intro it hit
      simp only [List.mem_cons, List.not_mem_nil, or_false] at hit
      rcases hit with h1 | h1 <;> subst h1 <;> norm_num [stopsAt])
  exact ⟨⟨h.1.1, h.1.2⟩, h.2.1 7 12 (by norm_num) (by norm_num), h.2.2.1,
    h.2.2.2.1 3, h.2.2.2.2⟩

/-! ## Client sessions (client_tcp lines 226-292, client_udp lines 295-357)

After connecting (TCP) or binding (UDP) the client waits for the first
packet with a 5-second timeout.  TCP: on timeout it prints the no-traffic
message, closes the socket and returns; on an immediate zero-length read it
returns without closing; otherwise it seeds the receiver state with the
first chunk and runs the measuring loop, and the `finally` block prints the
final average (when elapsed > 0) and closes the socket.  A mid-loop OS
error is caught nowhere in the client, so it propagates out of the session
(after the `finally` block runs).  UDP: same, except there is no
zero-length "peer closed" signal and the first-packet timeout is caught by
the outer `except socket.timeout`, with the `finally` printing nothing
because `start_time` is still `None`. -/

/-- Outcome of the TCP first-packet `recv` (5 s timeout). -/
inductive FirstRecv
  | timeout
  | emptyData
  | data (n : ℕ)
  deriving Repr, DecidableEq

/-- Observable outcome of a client session: whether the no-traffic timeout
message was printed, the final average line (if any), whether the socket
was closed, and whether an uncaught exception propagates out of the
session. -/
structure ClientOut where
  noTraffic : Bool
  report : Option ℚ
  sockClosed : Bool
  exnPropagates : Bool
  deriving Repr, DecidableEq

/-- The TCP client session from the first-packet wait onward.  `start` is
`start_time` (taken right after the first chunk), `dur` is `args.time`,
`endTime` is the clock reading in the `finally` block. -/
def client_tcp (first : FirstRecv) (start dur endTime : ℚ)
    (trace : List LoopIter) : ClientOut :=
  match first with
  | .timeout => ⟨true, none, true, false⟩
  | .emptyData => ⟨false, none, false, false⟩
  | .data n =>
      let r := measureLoop start dur ⟨n, start, n⟩ [] 0 trace
      ⟨false, finalReport r.st.total_bytes (endTime - start), true,
        decide (r.cause = .recvError)⟩

/-- The UDP measuring loop (client_udp lines 324-344): identical to the TCP
one except a zero-length datagram is just counted — there is no
"peer closed" break. -/
def udpMeasureLoop (start dur : ℚ) (s : RxState) (acc : List Sample) (k : ℕ) :
    List LoopIter → LoopResult
  | [] => ⟨s, acc, .running, k⟩
  | .cancel :: _ => ⟨s, acc, .cancelled, k⟩
  | .ev .recvErr :: _ => ⟨s, acc, .recvError, k + 1⟩
  | .ev (.timeout _) :: rest => udpMeasureLoop start dur s acc (k + 1) rest
  | .ev (.data n now) :: rest =>
      if now - start ≥ dur then
        ⟨(onBytes s n now).1, acc ++ ((onBytes s n now).2).toList, .durationElapsed, k + 1⟩
      else
        udpMeasureLoop start dur (onBytes s n now).1
          (acc ++ ((onBytes s n now).2).toList) (k + 1) rest

/-- Outcome of the UDP first-packet `recvfrom` (5 s timeout). -/
inductive UdpFirstRecv
  | timeout
  | data (n : ℕ)
  deriving Repr, DecidableEq

/-- The UDP client session from the first-packet wait onward. -/
def client_udp (first : UdpFirstRecv) (start dur endTime : ℚ)
    (trace : List LoopIter) : ClientOut :=
  match first with
  | .timeout => ⟨true, none, true, false⟩
  | .data n =>
      let r := udpMeasureLoop start dur ⟨n, start, n⟩ [] 0 trace
      ⟨false, finalReport r.st.total_bytes (endTime - start), true,
        decide (r.cause = .recvError)⟩

/-- C6: when the first-packet timeout expires with no data, both receiver
sessions print the no-traffic message, close their socket, print no
statistics at all (the final result is absent), and raise nothing. -/
theorem c6_no_traffic_detected (start dur endTime : ℚ) (trace : List LoopIter) :
    client_tcp .timeout start dur endTime trace = ⟨true, none, true, false⟩
    ∧ client_udp .timeout start dur endTime trace = ⟨true, none, true, false⟩ :=
  ⟨rfl, rfl⟩

/-- C9 counterexample: first chunk of 2 bytes at start 0, then 4 bytes at
t = 1, then a receive error; session end clock 2, duration 10.  The
`finally` block still prints the average (24/10^6 Mbit/s ≙ 24 bit/s) and
closes the socket, but the receive error is caught nowhere in the client:
`exnPropagates = true`, refuting "rather than the error propagating fatally
out of the session". -/
theorem c9_counterexample :
    client_tcp (.data 2) 0 10 2 [.ev (.data 4 1), .ev .recvErr]
      = ⟨false, some (24 / 1000000), true, true⟩ := by
  norm_num [client_tcp, measureLoop, onBytes, finalReport]

/-- C9 amended: when the measuring loop ends in a receive error, the
`finally` block still computes the final report from whatever was received
(and prints it whenever the elapsed time is positive) and closes the
socket, but the exception is uncaught and propagates out of the session. -/
theorem c9_midsession_error (n : ℕ) (start dur endTime : ℚ)
    (trace : List LoopIter)
    (herr : (measureLoop start dur ⟨n, start, n⟩ [] 0 trace).cause = .recvError) :
    client_tcp (.data n) start dur endTime trace
      = ⟨false,
         finalReport
           (measureLoop start dur ⟨n, start, n⟩ [] 0 trace).st.total_bytes
           (endTime - start),
         true, true⟩
    ∧ (endTime - start > 0 →
        (client_tcp (.data n) start dur endTime trace).report.isSome = true) := by
  have h1 : client_tcp (.data n) start dur endTime trace
      = ⟨false,
         finalReport
           (measureLoop start dur ⟨n, start, n⟩ [] 0 trace).st.total_bytes
           (endTime - start),
         true, true⟩ := by
    simp [client_tcp, herr]
  refine ⟨h1, fun hpos => ?_⟩
  rw [h1]
  simp only [finalReport, if_pos hpos, Option.isSome_some]

/-- Witness for C9 amended at the concrete error trace. -/
theorem c9_midsession_error_witness :
    client_tcp (.data 2) 0 10 2 [.ev (.data 4 1), .ev .recvErr]
      = ⟨false,
         finalReport
           (measureLoop 0 10 ⟨2, 0, 2⟩ [] 0
             [.ev (.data 4 1), .ev .recvErr]).st.total_bytes (2 - 0),
         true, true⟩
    ∧ (client_tcp (.data 2) 0 10 2
        [.ev (.data 4 1), .ev .recvErr]).report.isSome = true := by
  have h := c9_midsession_error 2 0 10 2 [.ev (.data 4 1), .ev .recvErr]
    (by norm_num [measureLoop, onBytes])
  exact ⟨h.1, h.2 (by norm_num)⟩

/-! ## TCP server (run_server lines 111-139, server_tcp_session lines 142-184)

`run_server` creates one listening socket, then loops
`while not stop_event.is_set(): server_tcp_session(listen_sock, args)`,
closing the listening socket only in its `finally`.  A session first polls
`accept` with a 1-second timeout (checking the stop flag between attempts),
then streams packets until the stop flag is observed or the write raises
`BrokenPipeError`/`ConnectionResetError`/`OSError`, which is caught; the
`finally` closes the accepted connection and the session returns to the
`run_server` loop. -/

/-- One iteration of the accept poll: the stop flag observed set, a
1-second `accept` timeout, a successful `accept`, or an `OSError` (which
makes the session return without a connection). -/
inductive AcceptIter
  | cancel
  | timeout
  | ok
  | osErr
  deriving Repr, DecidableEq

/-- The accept poll: returns (connection accepted?, stop flag observed?). -/
def acceptPhase : List AcceptIter → Bool × Bool
  | [] => (false, false)
  | .cancel :: _ => (false, true)
  | .timeout :: rest => acceptPhase rest
  | .ok :: _ => (true, false)
  | .osErr :: _ => (false, false)

/-- One iteration of the TCP streaming loop: the stop flag observed set, a
successful `sendall`, or a write failure (broken pipe / reset / OSError). -/
inductive SendIter
  | cancel
  | ok
  | writeError
  deriving Repr, DecidableEq

/-- The streaming loop: returns (stop flag observed?, write failure
caught?, packets sent). -/
def sendPhase : List SendIter → Bool × Bool × ℕ
  | [] => (false, false, 0)
  | .cancel :: _ => (true, false, 0)
  | .writeError :: _ => (false, true, 0)
  | .ok :: rest =>
      let r := sendPhase rest
      (r.1, r.2.1, r.2.2 + 1)

/-- Observable outcome of one TCP server session. -/
structure TcpSessionOut where
  accepted : Bool
  connClosed : Bool
  stopSet : Bool
  peerDisconnected : Bool
  packetsSent : ℕ
  deriving Repr, DecidableEq

/-- One `server_tcp_session` call: accept poll, then (if a client was
accepted) the streaming loop; the `finally` always closes the accepted
connection, and a caught write failure just ends the session. -/
def server_tcp_session (accepts : List AcceptIter) (sends : List SendIter) :
    TcpSessionOut :=
  if (acceptPhase accepts).1 then
    let r := sendPhase sends
    ⟨true, true, r.1, r.2.1, r.2.2⟩
  else
    ⟨false, false, (acceptPhase accepts).2, false, 0⟩

/-- The `run_server` loop for TCP: runs sessions on the one listening
socket while the stop flag is unset; the listening socket is closed only
after this loop, in `run_server`'s `finally`. -/
def run_server_tcp (stop : Bool) :
    List (List AcceptIter × List SendIter) → List TcpSessionOut
  | [] => []
  | script :: rest =>
      if stop then []
      else
        let o := server_tcp_session script.1 script.2
        o :: run_server_tcp o.stopSet rest

/-- C4: when the streaming loop of an accepted session ends in a write
failure (no cancellation), the connection is closed, the stop flag is
untouched, and the `run_server` loop immediately runs the next session —
which accepts a new connection on the same (still open) listening socket;
the process does not terminate. -/
theorem c4_tcp_write_failure_reaccept (a1 : List AcceptIter)
    (sends1 : List SendIter) (a2 : List AcceptIter) (sends2 : List SendIter)
    (m : ℕ) (h1 : acceptPhase a1 = (true, false))
    (he : sendPhase sends1 = (false, true, m))
    (h2 : acceptPhase a2 = (true, false)) :
    run_server_tcp false [(a1, sends1), (a2, sends2)]
      = [⟨true, true, false, true, m⟩,
         ⟨true, true, (sendPhase sends2).1, (sendPhase sends2).2.1,
          (sendPhase sends2).2.2⟩] := by
  simp [run_server_tcp, server_tcp_session, h1, he, h2]

/-- Witness for C4: a session that sends two packets and then hits a write
failure, followed by a session that accepts again (after one accept
timeout) and is then cancelled. -/
theorem c4_tcp_write_failure_reaccept_witness :
    run_server_tcp false
        [([.timeout, .ok], [.ok, .ok, .writeError]), ([.ok], [.cancel])]
      = [⟨true, true, false, true, 2⟩,
         ⟨true, true, (sendPhase [.cancel]).1, (sendPhase [.cancel]).2.1,
          (sendPhase [.cancel]).2.2⟩] :=
  c4_tcp_write_failure_reaccept [.timeout, .ok] [.ok, .ok, .writeError]
    [.ok] [.cancel] 2 rfl rfl rfl

/-! ## UDP server (run_server lines 111-139, server_udp_session lines 187-215)

`server_udp_session` recomputes `dest_addr` from `args` (explicit `--target`
or the broadcast address), resets `next_send_time = time.perf_counter()`,
and runs the paced send loop; the `except OSError` wraps the *whole* loop,
so a send error logs a message and returns from the session, after which
the `run_server` loop starts a fresh session (same socket, same `args`). -/

/-- `dest_addr` as computed at the top of `server_udp_session`. -/
def destAddr (target : Option String) (port : ℕ) : String × ℕ :=
  match target with
  | some t => (t, port)
  | none => ("255.255.255.255", port)

/-- One iteration of the UDP send loop: the stop flag observed set, or a
`sendto` that either succeeds or raises `OSError`. -/
inductive UIter
  | cancel
  | send (fails : Bool)
  deriving Repr, DecidableEq

/-- Outcome of one UDP send loop: the `next_send_time` deadline governing
each successful send, whether an `OSError` ended the loop, and whether the
stop flag was observed. -/
structure UdpLoopOut where
  deadlines : List ℚ
  errEnded : Bool
  stopSet : Bool
  deriving Repr, DecidableEq

/-- The UDP paced send loop of `server_udp_session`: `next` is
`next_send_time`, advanced by `iv` after every successful send; a failing
`sendto` raises out of the loop (no deadline advance, loop over). -/
def server_udp_loop (iv : ℚ) (next : ℚ) : List UIter → UdpLoopOut
  | [] => ⟨[], false, false⟩
  | .cancel :: _ => ⟨[], false, true⟩
  | .send true :: _ => ⟨[], true, false⟩
  | .send false :: rest =>
      let r := server_udp_loop iv (next + iv) rest
      ⟨next :: r.deadlines, r.errEnded, r.stopSet⟩

/-- One `server_udp_session` call: destination resolved from `args`, the
send loop started with a fresh `next_send_time = t0`; returns the
(destination, deadline) pair of every packet sent and whether the stop flag
was observed. -/
def server_udp_session (target : Option String) (port : ℕ) (iv t0 : ℚ)
    (iters : List UIter) : List ((String × ℕ) × ℚ) × Bool :=
  let r := server_udp_loop iv t0 iters
  (r.deadlines.map (fun d => (destAddr target port, d)), r.stopSet)

/-- The `run_server` loop for UDP: all packets sent across the sequential
sessions, each session starting at its own clock reading `t0`. -/
def run_server_udp (target : Option String) (port : ℕ) (iv : ℚ) :
    Bool → List (ℚ × List UIter) → List ((String × ℕ) × ℚ)
  | _, [] => []
  | stop, (t0, iters) :: rest =>
      if stop then []
      else
        let s := server_udp_session target port iv t0 iters
        s.1 ++ run_server_udp target port iv s.2 rest

/-- Helper: a send error ends the UDP loop without the stop flag having
been observed. -/
theorem server_udp_loop_err_not_stop (iv : ℚ) :
    ∀ (next : ℚ) (iters : List UIter),
      (server_udp_loop iv next iters).errEnded = true →
      (server_udp_loop iv next iters).stopSet = false := by
  intro next iters
  induction iters generalizing next with
  | nil => intro h; simp [server_udp_loop] at h
  | cons it rest ih =>
      cases it with
      | cancel => intro h; simp [server_udp_loop] at h
      | send fails =>
          cases fails with
          | true => intro h; simp [server_udp_loop]
          | false =>
              intro h
              simp only [server_udp_loop] at h ⊢
              exact ih (next + iv) h

/-- Helper: every packet `run_server_udp` sends goes to the configured
destination, whatever happens. -/
theorem run_server_udp_dest (target : Option String) (port : ℕ) (iv : ℚ) :
    ∀ (stop : Bool) (scripts : List (ℚ × List UIter)),
      (run_server_udp target port iv stop scripts).all
        (fun p => decide (p.1 = destAddr target port)) = true := by
  intro stop scripts
  induction scripts generalizing stop with
  | nil => cases stop <;> rfl
  | cons sc rest ih =>
      obtain ⟨t0, iters⟩ := sc
      cases stop with
      | true => rfl
      | false =>
          simp only [run_server_udp, if_neg (by simp : ¬ (false = true)),
            List.all_append, Bool.and_eq_true]
          refine ⟨?_, ih _⟩
          simp [server_udp_session, List.all_eq_true]

/-- C5 counterexample: unicast target, interval 2, session starting at
t0 = 0.  Two packets go out with deadlines 0 and 2 (so `next_send_time`
is 4 when the third `sendto` raises `OSError`).  The error ends the loop
(`errEnded = true`); sending resumes only in a fresh session starting at
t0 = 10, whose packet is paced against the reset deadline 10, not against
the pre-error pacing state 4 — refuting "a send error changes neither …
the pacing state … the send loop continues". -/
theorem c5_counterexample :
    run_server_udp (some "192.168.2.114") 5000 2 false
        [(0, [.send false, .send false, .send true]), (10, [.send false])]
      = [(("192.168.2.114", 5000), 0), (("192.168.2.114", 5000), 2),
         (("192.168.2.114", 5000), 10)]
    ∧ (server_udp_loop 2 0 [.send false, .send false, .send true]).errEnded = true
    ∧ ((10 : ℚ) ≠ 0 + 2 * 2) := by
  refine ⟨?_, rfl, by norm_num⟩
  norm_num [run_server_udp, server_udp_session, server_udp_loop, destAddr]

/-- C5 amended: a send error is logged and ends the current session (the
failed packet is not retried); the stop flag is untouched, so the server
loop immediately starts a fresh session whose destination is recomputed to
the same configured address and whose pacing deadline is reinitialised to
the new session's start time — every packet ever sent goes to the
configured destination. -/
theorem c5_udp_send_error (target : Option String) (port : ℕ) (iv : ℚ)
    (t0 : ℚ) (iters : List UIter) (t0' : ℚ) (iters' : List UIter)
    (rest : List (ℚ × List UIter))
    (herr : (server_udp_loop iv t0 iters).errEnded = true) :
    (run_server_udp target port iv false
        ((t0, iters) :: (t0', iters') :: rest)).all
        (fun p => decide (p.1 = destAddr target port)) = true
    ∧ run_server_udp target port iv false ((t0, iters) :: (t0', iters') :: rest)
        = (server_udp_session target port iv t0 iters).1
          ++ run_server_udp target port iv false ((t0', iters') :: rest)
    ∧ (∀ more : List UIter,
        ((server_udp_loop iv t0' (.send false :: more)).deadlines).head?
          = some t0') := by
  refine ⟨run_server_udp_dest target port iv false _, ?_, ?_⟩
  · have hstop : (server_udp_session target port iv t0 iters).2 = false := by
      simp only [server_udp_session]
      exact server_udp_loop_err_not_stop iv t0 iters herr
    simp only [run_server_udp, if_neg (by simp : ¬ (false = true))]
    rw [hstop]
    simp
  · intro more
    simp [server_udp_loop]

/-- Witness for C5 amended: a first session whose only `sendto` fails, then
a session starting at t0 = 7 whose first packet is paced at deadline 7. -/
theorem c5_udp_send_error_witness :
    (run_server_udp (some "10.0.0.2") 5000 1 false
        [(0, [.send true]), (7, [.send false])]).all
        (fun p => decide (p.1 = destAddr (some "10.0.0.2") 5000)) = true
    ∧ run_server_udp (some "10.0.0.2") 5000 1 false
        [(0, [.send true]), (7, [.send false])]
        = (server_udp_session (some "10.0.0.2") 5000 1 0 [.send true]).1
          ++ run_server_udp (some "10.0.0.2") 5000 1 false [(7, [.send false])]
    ∧ ((server_udp_loop 1 7 (.send false :: [])).deadlines).head? = some 7 := by
  have h := c5_udp_send_error (some "10.0.0.2") 5000 1 0 [.send true] 7
    [.send false] [] rfl
  exact ⟨h.1, h.2.1, h.2.2 []⟩

end LanProbe
